import Mathlib

/-!
Verification of the quiz-game state machine in `src/state.ts`.

The reducer, state model and action vocabulary are embedded from
`src/state.ts`.  The collaborator modules that `state.ts` imports
(`./questions`, `./hooks/useAsyncReducer`, `./utils`, `canvas-confetti`)
are not part of the source tree; the pieces of them the reducer needs are
modelled from the specification and marked as such in their doc comments.

The embedding is runtime-faithful rather than TypeScript-type-faithful:
`new_game` with an empty question list destructures an empty array, so at
runtime `currentQuestion` can be `undefined` even though its declared type
is `Question`.  `currentQuestion` is therefore an `Option Question`, the
`question` field of an answered pair is an `Option Question`, and the
reducer returns `Except JsError _` because reading `.correctOption` off an
`undefined` current question throws a `TypeError` in JavaScript.
-/

namespace QuizGame

/-- Modelled from the spec: `Answer` (declared in `src/questions.ts`, which is
not in the source tree) is an opaque value identifying a selected option,
comparable for equality against a question's correct-option identifier. -/
abbrev Answer := Nat

/-- Modelled from the spec: `Question` (declared in `src/questions.ts`, which
is not in the source tree) is an immutable prompt with a fixed ordered set of
options and a designated correct option identifier. -/
structure Question where
  prompt : String
  options : List Answer
  correctOption : Answer
deriving DecidableEq

/-- Modelled from the spec: `QuestionItem` (declared in `src/questions.ts`,
which is not in the source tree) is one entry of the master pool of source
material from which questions are generated; the core treats it as opaque.
Each item deterministically yields one question. -/
structure QuestionItem where
  question : Question
deriving DecidableEq

/-- Modelled from the spec: `AnsweredQuestion` (declared in
`src/questions.ts`, which is not in the source tree) pairs one question with
the answer given for it.  The `question` field is an `Option` because the
reducer copies `currentQuestion`, which can be `undefined` at runtime. -/
structure AnsweredQuestion where
  question : Option Question
  answer : Answer
deriving DecidableEq

/-- Modelled from the spec: `makeQuestions` (declared in `src/questions.ts`,
which is not in the source tree) generates an ordered list of `count`
questions from the question-item pool; it is deterministic and returns
`count` questions, or fewer only if the pool is exhausted.  Modelled as
converting the first `count` pool items, in order. -/
def makeQuestions (count : Nat) (items : List QuestionItem) : List Question :=
  (items.take count).map QuestionItem.question

/-- `GameBeforeStartState` from `src/state.ts`: present in the type model but
not a member of the `GameState` union, hence unreachable dead code there;
kept here for fidelity. -/
structure GameBeforeStartState

/-- `GameState` from `src/state.ts`: the union of `GameInProgressState` and
`GameEndState` (the `before_start` interface is not part of the union).
`currentQuestion` and `currentAnswer` are `Option`s: `currentAnswer` is
optional in the TypeScript type, and `currentQuestion` can be `undefined` at
runtime via `new_game` with an empty list. -/
inductive GameState where
  | in_progress (answeredQuestions : List AnsweredQuestion)
      (currentQuestion : Option Question)
      (currentAnswer : Option Answer)
      (nextQuestions : List Question)
  | ended (answeredQuestions : List AnsweredQuestion)
deriving DecidableEq

/-- `State` from `src/state.ts`. -/
structure State where
  questionItems : List QuestionItem
  gameState : GameState
deriving DecidableEq

/-- `Action` from `src/state.ts`. -/
inductive Action where
  | answer (answer : Answer)
  | next_question
  | start_game
  | new_game (questions : List Question)
deriving DecidableEq

/-- `answerAction` from `src/state.ts`. -/
def answerAction (answer : Answer) : Action := Action.answer answer

/-- `nextQuestionAction` from `src/state.ts` (a `Lazy<Action>` thunk; the
thunk structure is irrelevant to the state machine). -/
def nextQuestionAction : Action := Action.next_question

/-- `startGameAction` from `src/state.ts`. -/
def startGameAction : Action := Action.start_game

/-- `newGameAction` from `src/state.ts`. -/
def newGameAction (questions : List Question) : Action :=
  Action.new_game questions

/-- The two effect closures built by `src/state.ts`: `nextQuestion` captures
only the answer-correctness flag, `newGame` captures only the question pool.
Effects are modelled as data; their resolution behaviour is given by
`Effect.triggersConfetti`, `Effect.delayMs` and `Effect.resolve`. -/
inductive Effect where
  | nextQuestion (isAnswerCorrect : Bool)
  | newGame (data : List QuestionItem)
deriving DecidableEq

/-- Whether running the effect triggers the celebratory confetti animation
(`if (isAnswerCorrect) confetti();` in `nextQuestion`). -/
def Effect.triggersConfetti : Effect → Bool
  | .nextQuestion isAnswerCorrect => isAnswerCorrect
  | .newGame _ => false

/-- The delay the effect awaits before producing its actions
(`await delay(1500);` in `nextQuestion`). -/
def Effect.delayMs : Effect → Nat
  | .nextQuestion _ => 1500
  | .newGame _ => 0

/-- The list of actions the effect resolves to. -/
def Effect.resolve : Effect → List Action
  | .nextQuestion _ => [Action.next_question]
  | .newGame data => [Action.new_game (makeQuestions 6 data)]

/-- `initState` from `src/state.ts`.  The array destructuring
`const [firstQuestion, ...restQuestions] = makeQuestions(...)` is modelled by
`head?` and `tail`, which agree with JavaScript destructuring also on the
empty list. -/
def initState (questionItems : List QuestionItem) : State :=
  let numQuestions := 6
  let questions := makeQuestions numQuestions questionItems
  { questionItems := questionItems,
    gameState := GameState.in_progress [] questions.head? none questions.tail }

/-- Modelled from the spec: `noEffects` (declared in
`src/hooks/useAsyncReducer.ts`, which is not in the source tree) wraps a
state with an empty effects list, as every "no-op (state and effects
unchanged)" row of the transition table requires. -/
def noEffects (state : State) : State × List Effect := (state, [])

/-- The JavaScript runtime failure the reducer can hit: reading
`.correctOption` off an `undefined` `currentQuestion` throws a `TypeError`. -/
inductive JsError where
  | typeError
deriving DecidableEq

/-- `reducer` from `src/state.ts`.  Each branch mirrors the source in order.
The only partiality is the `answer` branch: after the two guard checks it
evaluates `state.gameState.currentQuestion.correctOption`, which throws if
`currentQuestion` is `undefined`; that is the `Except.error` case.  The
source's final defensive `return { state, effects: [] }` is unreachable
because the action match above is exhaustive. -/
def reducer (state : State) (action : Action) :
    Except JsError (State × List Effect) :=
  match action with
  | Action.start_game =>
      Except.ok (state, [Effect.newGame state.questionItems])
  | Action.new_game questions =>
      Except.ok (noEffects
        { state with
          gameState :=
            GameState.in_progress [] questions.head? none questions.tail })
  | Action.answer answer =>
      match state.gameState with
      | GameState.ended _ => Except.ok (noEffects state)
      | GameState.in_progress answeredQuestions currentQuestion
          currentAnswer nextQuestions =>
        match currentAnswer with
        | some _ => Except.ok (noEffects state)
        | none =>
          match currentQuestion with
          | none => Except.error JsError.typeError
          | some q =>
            Except.ok
              ({ state with
                 gameState :=
                   GameState.in_progress answeredQuestions (some q)
                     (some answer) nextQuestions },
               [Effect.nextQuestion (answer == q.correctOption)])
  | Action.next_question =>
      match state.gameState with
      | GameState.ended _ => Except.ok (noEffects state)
      | GameState.in_progress answeredQuestions currentQuestion
          currentAnswer nextQuestions =>
        match currentAnswer with
        | none => Except.ok (noEffects state)
        | some answer =>
          let answeredQuestions :=
            ({ question := currentQuestion, answer := answer } :
              AnsweredQuestion) :: answeredQuestions
          if nextQuestions.length ≤ 0 then
            Except.ok (noEffects
              { state with gameState := GameState.ended answeredQuestions })
          else
            Except.ok (noEffects
              { state with
                gameState :=
                  GameState.in_progress answeredQuestions nextQuestions.head?
                    none nextQuestions.tail })

/-- C9: `next_question` while unanswered is a no-op. -/
theorem next_question_unanswered_noop
    (pool : List QuestionItem) (aq : List AnsweredQuestion)
    (cq : Option Question) (nq : List Question) :
    reducer ⟨pool, GameState.in_progress aq cq none nq⟩
        Action.next_question =
      Except.ok (⟨pool, GameState.in_progress aq cq none nq⟩, []) := rfl

/-- C8: a second `answer` while one is already recorded is a no-op. -/
theorem in_progress_second_answer_noop
    (pool : List QuestionItem) (aq : List AnsweredQuestion)
    (cq : Option Question) (a0 : Answer) (nq : List Question) (a : Answer) :
    reducer ⟨pool, GameState.in_progress aq cq (some a0) nq⟩
        (Action.answer a) =
      Except.ok (⟨pool, GameState.in_progress aq cq (some a0) nq⟩, []) := rfl

/-- C7: in an `ended` state, both `answer` and `next_question` are no-ops. -/
theorem ended_answer_next_question_noop
    (pool : List QuestionItem) (aq : List AnsweredQuestion) (a : Answer) :
    reducer ⟨pool, GameState.ended aq⟩ (Action.answer a) =
        Except.ok (⟨pool, GameState.ended aq⟩, []) ∧
      reducer ⟨pool, GameState.ended aq⟩ Action.next_question =
        Except.ok (⟨pool, GameState.ended aq⟩, []) :=
  ⟨rfl, rfl⟩

/-- C10: `new_game` with an empty question list is not rejected: it installs
an `in_progress` state with no answered questions, an undefined current
question, no current answer and an empty queue, with no effects. -/
theorem new_game_empty_starts_undefined_current (s : State) :
    reducer s (Action.new_game []) =
      Except.ok
        ({ s with gameState := GameState.in_progress [] none none [] },
         []) := rfl

/-- C4: `new_game` with a non-empty question list installs a fresh
`in_progress` state: empty answered list, current question the head of the
supplied list, no current answer, queue the tail, and no effects. -/
theorem new_game_nonempty_starts_fresh_session
    (s : State) (q : Question) (rest : List Question) :
    reducer s (Action.new_game (q :: rest)) =
      Except.ok
        ({ s with gameState := GameState.in_progress [] (some q) none rest },
         []) := rfl

/-- C1 (amended with `currentQuestion` defined): answering an unanswered
`in_progress` question sets `currentAnswer` to the submitted answer, leaves
everything else unchanged, and returns exactly one effect; that effect
triggers the confetti animation iff the submitted answer equals the current
question's `correctOption`, and resolves to exactly one `next_question`
action. -/
theorem answer_unanswered_sets_answer_effect
    (pool : List QuestionItem) (aq : List AnsweredQuestion) (q : Question)
    (nq : List Question) (a : Answer) :
    reducer ⟨pool, GameState.in_progress aq (some q) none nq⟩
        (Action.answer a) =
      Except.ok
        (⟨pool, GameState.in_progress aq (some q) (some a) nq⟩,
         [Effect.nextQuestion (a == q.correctOption)]) ∧
      ((Effect.nextQuestion (a == q.correctOption)).triggersConfetti = true ↔
        a = q.correctOption) ∧
      (Effect.nextQuestion (a == q.correctOption)).resolve =
        [Action.next_question] :=
  ⟨rfl, by simp [Effect.triggersConfetti], rfl⟩

/-- A concrete runtime state with `gameState` in progress, `currentAnswer`
undefined and `currentQuestion` undefined, reachable via `new_game` with an
empty question list. -/
def crashState : State :=
  { questionItems := [], gameState := GameState.in_progress [] none none [] }

/-- C1 counterexample: on an `in_progress` state with `currentAnswer`
undefined but `currentQuestion` undefined, the reducer does not return the
claimed updated state and effect; it throws a `TypeError` (reading
`.correctOption` off `undefined`). -/
theorem answer_missing_current_question_throws :
    reducer crashState (Action.answer 0) = Except.error JsError.typeError ∧
      ∀ r : State × List Effect,
        reducer crashState (Action.answer 0) ≠ Except.ok r :=
  ⟨rfl, fun r h => by simp [reducer, crashState] at h⟩

/-- C2: `next_question` on an answered `in_progress` state prepends the
completed pair to `answeredQuestions`; with an empty queue it transitions to
`ended` with that list, otherwise it advances to the queue's head, clears the
answer and keeps the tail.  No effects either way. -/
theorem next_question_answered_advances_or_ends
    (pool : List QuestionItem) (aq : List AnsweredQuestion)
    (cq : Option Question) (a : Answer) :
    (reducer ⟨pool, GameState.in_progress aq cq (some a) []⟩
        Action.next_question =
      Except.ok
        (⟨pool,
          GameState.ended ({ question := cq, answer := a } :: aq)⟩, [])) ∧
      ∀ (h : Question) (t : List Question),
        reducer ⟨pool, GameState.in_progress aq cq (some a) (h :: t)⟩
            Action.next_question =
          Except.ok
            (⟨pool,
              GameState.in_progress ({ question := cq, answer := a } :: aq)
                (some h) none t⟩, []) :=
  ⟨rfl, fun _ _ => rfl⟩

/-- C3: `start_game` leaves the state unchanged and returns exactly one
effect; that effect resolves to exactly one `new_game` action carrying the
question list generated from the state's question-item pool, which has
length 6 whenever the pool suffices. -/
theorem start_game_schedules_new_game_effect (s : State) :
    reducer s Action.start_game =
        Except.ok (s, [Effect.newGame s.questionItems]) ∧
      (Effect.newGame s.questionItems).resolve =
        [Action.new_game (makeQuestions 6 s.questionItems)] ∧
      (6 ≤ s.questionItems.length →
        (makeQuestions 6 s.questionItems).length = 6) :=
  ⟨rfl, rfl, fun h => by simp [makeQuestions, h]⟩

/-- A concrete pool of six distinct question items. -/
def pool6 : List QuestionItem :=
  (List.range 6).map fun i =>
    { question :=
        { prompt := toString i, options := [i, i + 1], correctOption := i } }

/-- Witness for C3 at a concrete state with a six-item pool. -/
theorem start_game_schedules_new_game_effect_witness :
    6 ≤ (State.mk pool6 (GameState.ended [])).questionItems.length ∧
      (makeQuestions 6
        (State.mk pool6 (GameState.ended [])).questionItems).length = 6 :=
  ⟨by decide,
   (start_game_schedules_new_game_effect
      (State.mk pool6 (GameState.ended []))).2.2 (by decide)⟩

/-- One reducer transition: some action takes `s` to `t` without throwing. -/
def Step (s t : State) : Prop :=
  ∃ (a : Action) (effs : List Effect), reducer s a = Except.ok (t, effs)

/-- States reachable from `init` by applying reducer transitions. -/
inductive Reachable (init : State) : State → Prop where
  | refl : Reachable init init
  | tail {s t : State} : Reachable init s → Step s t → Reachable init t

/-- The property claimed for `in_progress` states: the current question is
defined and distinct from every entry of the queue (vacuously true for
`ended`). -/
def currentDistinct : GameState → Prop
  | GameState.in_progress _ (some q) _ nq => q ∉ nq
  | GameState.in_progress _ none _ _ => False
  | GameState.ended _ => True

instance : DecidablePred currentDistinct := fun gs =>
  match gs with
  | GameState.in_progress _ (some q) _ nq =>
      inferInstanceAs (Decidable (q ∉ nq))
  | GameState.in_progress _ none _ _ => inferInstanceAs (Decidable False)
  | GameState.ended _ => inferInstanceAs (Decidable True)

/-- The inductive strengthening of `currentDistinct`: the current question
together with the queue forms a duplicate-free list. -/
def sessionNodup : GameState → Prop
  | GameState.in_progress _ (some q) _ nq => (q :: nq).Nodup
  | GameState.in_progress _ none _ _ => False
  | GameState.ended _ => True

instance : DecidablePred sessionNodup := fun gs =>
  match gs with
  | GameState.in_progress _ (some q) _ nq =>
      inferInstanceAs (Decidable (q :: nq).Nodup)
  | GameState.in_progress _ none _ _ => inferInstanceAs (Decidable False)
  | GameState.ended _ => inferInstanceAs (Decidable True)

theorem sessionNodup_currentDistinct {gs : GameState} (h : sessionNodup gs) :
    currentDistinct gs := by
  match gs with
  | GameState.in_progress _ (some q) _ nq =>
      exact (List.nodup_cons.mp h).1
  | GameState.in_progress _ none _ _ => exact h
  | GameState.ended _ => trivial

/-- A dispatched action is benign when any `new_game` payload it carries is a
non-empty, duplicate-free question list (as the question generator is meant
to supply). -/
def benignAction : Action → Prop
  | Action.new_game qs => qs ≠ [] ∧ qs.Nodup
  | _ => True

/-- A reducer transition by a benign action. -/
def BenignStep (s t : State) : Prop :=
  ∃ (a : Action) (effs : List Effect),
    benignAction a ∧ reducer s a = Except.ok (t, effs)

/-- States reachable from `init` by benign reducer transitions. -/
inductive BenignReachable (init : State) : State → Prop where
  | refl : BenignReachable init init
  | tail {s t : State} :
      BenignReachable init s → BenignStep s t → BenignReachable init t

theorem sessionNodup_step {s t : State} (h : BenignStep s t)
    (hs : sessionNodup s.gameState) : sessionNodup t.gameState := by
  obtain ⟨a, effs, hben, hred⟩ := h
  obtain ⟨spool, sgs⟩ := s
  cases a with
  | start_game =>
      simp only [reducer] at hred
      obtain ⟨h1, -⟩ := Prod.mk.injEq .. ▸ (Except.ok.injEq .. ▸ hred)
      exact h1 ▸ hs
  | new_game qs =>
      obtain ⟨hne, hnd⟩ := hben
      obtain ⟨q, rest, rfl⟩ : ∃ q rest, qs = q :: rest := by
        cases qs with
        | nil => exact absurd rfl hne
        | cons q rest => exact ⟨q, rest, rfl⟩
      simp only [reducer, noEffects] at hred
      obtain ⟨h1, -⟩ := Prod.mk.injEq .. ▸ (Except.ok.injEq .. ▸ hred)
      rw [← h1]
      exact hnd
  | answer a =>
      cases sgs with
      | ended aq =>
          simp only [reducer, noEffects] at hred
          obtain ⟨h1, -⟩ := Prod.mk.injEq .. ▸ (Except.ok.injEq .. ▸ hred)
          rw [← h1]
          exact hs
      | in_progress aq cq ca nq =>
          match cq, ca with
          | _, some a0 =>
              simp only [reducer, noEffects] at hred
              obtain ⟨h1, -⟩ := Prod.mk.injEq .. ▸ (Except.ok.injEq .. ▸ hred)
              rw [← h1]
              exact hs
          | none, none => exact absurd hs (by simp [sessionNodup])
          | some q, none =>
              simp only [reducer, noEffects] at hred
              obtain ⟨h1, -⟩ := Prod.mk.injEq .. ▸ (Except.ok.injEq .. ▸ hred)
              rw [← h1]
              exact hs
  | next_question =>
      cases sgs with
      | ended aq =>
          simp only [reducer, noEffects] at hred
          obtain ⟨h1, -⟩ := Prod.mk.injEq .. ▸ (Except.ok.injEq .. ▸ hred)
          rw [← h1]
          exact hs
      | in_progress aq cq ca nq =>
          match cq, ca with
          | _, none =>
              simp only [reducer, noEffects] at hred
              obtain ⟨h1, -⟩ := Prod.mk.injEq .. ▸ (Except.ok.injEq .. ▸ hred)
              rw [← h1]
              exact hs
          | none, some a0 => exact absurd hs (by simp [sessionNodup])
          | some q, some a0 =>
              match nq with
              | [] =>
                  simp only [reducer, noEffects, List.length_nil,
                    Nat.le_refl, if_pos] at hred
                  obtain ⟨h1, -⟩ :=
                    Prod.mk.injEq .. ▸ (Except.ok.injEq .. ▸ hred)
                  rw [← h1]
                  trivial
              | h2 :: t2 =>
                  simp only [reducer, noEffects, List.length_cons] at hred
                  rw [if_neg (by omega)] at hred
                  obtain ⟨h1, -⟩ :=
                    Prod.mk.injEq .. ▸ (Except.ok.injEq .. ▸ hred)
                  rw [← h1]
                  simpa [sessionNodup] using (List.nodup_cons.mp hs).2

theorem sessionNodup_benignReachable {init s : State}
    (hr : BenignReachable init s) (h0 : sessionNodup init.gameState) :
    sessionNodup s.gameState := by
  induction hr with
  | refl => exact h0
  | tail _ hstep ih => exact sessionNodup_step hstep ih

/-- C5 (amended): restricted to benign transitions — every dispatched
`new_game` carries a non-empty duplicate-free question list — and to runs
whose initial state already satisfies the duplicate-freedom invariant, every
reachable `in_progress` state has a defined current question that is
distinct from every entry of its queue. -/
theorem benign_reachable_current_distinct (pool : List QuestionItem)
    (s : State) (h0 : sessionNodup (initState pool).gameState)
    (hr : BenignReachable (initState pool) s) :
    currentDistinct s.gameState :=
  sessionNodup_currentDistinct (sessionNodup_benignReachable hr h0)

/-- Witness for C5 at the concrete six-item pool: the initial state itself. -/
theorem benign_reachable_current_distinct_witness :
    sessionNodup (initState pool6).gameState ∧
      currentDistinct (initState pool6).gameState :=
  ⟨by decide,
   benign_reachable_current_distinct pool6 (initState pool6) (by decide)
     BenignReachable.refl⟩

/-- A duplicated question used to refute C5 as stated. -/
def dupQuestion : Question :=
  { prompt := "dup", options := [0, 1], correctOption := 0 }

/-- The state reached from `initState pool6` by dispatching `new_game` with
the duplicated list `[dupQuestion, dupQuestion]`. -/
def dupState : State :=
  { questionItems := pool6,
    gameState :=
      GameState.in_progress [] (some dupQuestion) none [dupQuestion] }

/-- C5 counterexample: `dupState` is reachable from the initial state by one
reducer transition (a `new_game` action whose list repeats one question), yet
its current question occurs in its queue, so the claimed invariant fails on
a reachable state. -/
theorem reachable_state_with_duplicate_current :
    Reachable (initState pool6) dupState ∧
      ¬ currentDistinct dupState.gameState :=
  ⟨Reachable.tail Reachable.refl
     ⟨Action.new_game [dupQuestion, dupQuestion], [], rfl⟩,
   by decide⟩

/-- The quantity the spec says is conserved within a game session:
answered questions, plus one for the question in play when the game is in
progress, plus the remaining queue. -/
def sessionMeasure : GameState → Nat
  | GameState.in_progress aq _ _ nq => aq.length + 1 + nq.length
  | GameState.ended aq => aq.length

/-- Actions that stay within the current game session: everything except
`new_game`, which begins a fresh session. -/
def isSessionAction : Action → Bool
  | Action.new_game _ => false
  | _ => true

theorem sessionMeasure_session_step {s t : State} {a : Action}
    {effs : List Effect} (hsa : isSessionAction a = true)
    (hred : reducer s a = Except.ok (t, effs)) :
    sessionMeasure t.gameState = sessionMeasure s.gameState := by
  obtain ⟨spool, sgs⟩ := s
  cases a with
  | new_game qs => simp [isSessionAction] at hsa
  | start_game =>
      simp only [reducer] at hred
      obtain ⟨h1, -⟩ := Prod.mk.injEq .. ▸ (Except.ok.injEq .. ▸ hred)
      rw [← h1]
  | answer a =>
      cases sgs with
      | ended aq =>
          simp only [reducer, noEffects] at hred
          obtain ⟨h1, -⟩ := Prod.mk.injEq .. ▸ (Except.ok.injEq .. ▸ hred)
          rw [← h1]
      | in_progress aq cq ca nq =>
          match cq, ca with
          | _, some a0 =>
              simp only [reducer, noEffects] at hred
              obtain ⟨h1, -⟩ := Prod.mk.injEq .. ▸ (Except.ok.injEq .. ▸ hred)
              rw [← h1]
          | none, none =>
              simp only [reducer] at hred
              exact Except.noConfusion hred
          | some q, none =>
              simp only [reducer, noEffects] at hred
              obtain ⟨h1, -⟩ := Prod.mk.injEq .. ▸ (Except.ok.injEq .. ▸ hred)
              rw [← h1]
              simp [sessionMeasure]
  | next_question =>
      cases sgs with
      | ended aq =>
          simp only [reducer, noEffects] at hred
          obtain ⟨h1, -⟩ := Prod.mk.injEq .. ▸ (Except.ok.injEq .. ▸ hred)
          rw [← h1]
      | in_progress aq cq ca nq =>
          match ca with
          | none =>
              simp only [reducer, noEffects] at hred
              obtain ⟨h1, -⟩ := Prod.mk.injEq .. ▸ (Except.ok.injEq .. ▸ hred)
              rw [← h1]
          | some a0 =>
              match nq with
              | [] =>
                  simp only [reducer, noEffects, List.length_nil,
                    Nat.le_refl, if_pos] at hred
                  obtain ⟨h1, -⟩ :=
                    Prod.mk.injEq .. ▸ (Except.ok.injEq .. ▸ hred)
                  rw [← h1]
                  simp [sessionMeasure]
              | h2 :: t2 =>
                  simp only [reducer, noEffects, List.length_cons] at hred
                  rw [if_neg (by omega)] at hred
                  obtain ⟨h1, -⟩ :=
                    Prod.mk.injEq .. ▸ (Except.ok.injEq .. ▸ hred)
                  rw [← h1]
                  simp only [sessionMeasure, List.length_cons,
                    List.tail_cons]
                  omega

/-- C6: the session measure (answered + 1 if in progress + queued) is
unchanged by every within-session reducer transition, equals 6 in the state
built by `initState` from a sufficient pool, and equals 6 in the session
installed by a `new_game` action carrying the generator's six questions. -/
theorem session_measure_invariant :
    (∀ (s : State) (a : Action) (t : State) (effs : List Effect),
        isSessionAction a = true → reducer s a = Except.ok (t, effs) →
        sessionMeasure t.gameState = sessionMeasure s.gameState) ∧
      (∀ pool : List QuestionItem, 6 ≤ pool.length →
        sessionMeasure (initState pool).gameState = 6) ∧
      (∀ (s : State) (pool : List QuestionItem) (t : State)
          (effs : List Effect), 6 ≤ pool.length →
        reducer s (Action.new_game (makeQuestions 6 pool)) =
          Except.ok (t, effs) →
        sessionMeasure t.gameState = 6) := by
  refine ⟨fun s a t effs hsa hred => sessionMeasure_session_step hsa hred,
    fun pool h => ?_, fun s pool t effs h hred => ?_⟩
  · have hlen : (makeQuestions 6 pool).length = 6 := by
      simp [makeQuestions]
      omega
    simp [initState, sessionMeasure, List.length_tail, hlen]
  · have hlen : (makeQuestions 6 pool).length = 6 := by
      simp [makeQuestions]
      omega
    simp only [reducer, noEffects] at hred
    obtain ⟨h1, -⟩ := Prod.mk.injEq .. ▸ (Except.ok.injEq .. ▸ hred)
    rw [← h1]
    simp [sessionMeasure, List.length_tail, hlen]

/-- Witness for C6 at the concrete six-item pool: a no-op within-session
step, the initial state, and a `new_game` step with the generated list. -/
theorem session_measure_invariant_witness :
    (isSessionAction Action.next_question = true ∧
       sessionMeasure (initState pool6).gameState =
         sessionMeasure (initState pool6).gameState) ∧
      (6 ≤ pool6.length ∧ sessionMeasure (initState pool6).gameState = 6) ∧
      sessionMeasure
          (State.mk pool6
            (GameState.in_progress [] (makeQuestions 6 pool6).head? none
              (makeQuestions 6 pool6).tail)).gameState = 6 :=
  ⟨⟨by decide,
    session_measure_invariant.1 (initState pool6) Action.next_question
      (initState pool6) [] (by decide) rfl⟩,
   ⟨by decide, session_measure_invariant.2.1 pool6 (by decide)⟩,
   session_measure_invariant.2.2 (initState pool6) pool6
     (State.mk pool6
       (GameState.in_progress [] (makeQuestions 6 pool6).head? none
         (makeQuestions 6 pool6).tail)) [] (by decide) rfl⟩

end QuizGame
